import Mathlib

/-!
Verification of the `dataviz-linegraph` charting library core: the pixel
canvas (buffer management, Bresenham line drawing with style variants,
alpha blending), the SVG canvas (fragment accumulation and numeric
formatting), the area-chart fill, and the shared scale computation.

Modelling conventions:
* Rust `u8` is `Fin 256`; colors `[u8; 3]` are triples of bytes.
* Rust `u32` values are `Nat`s below `2^32`; arithmetic that wraps in
  release builds is taken modulo `2^32` explicitly.
* Rust `i32` values are `Int`s; the `as u32` / `as i32` casts are modelled
  by explicit two's-complement wrap / saturating truncation.
* `f64` is modelled by `F`: an exact rational together with the special
  values `inf`, `negInf`, `nan`, with IEEE-754 propagation rules for the
  operations used by the code.  All floating computations the claims
  depend on (subtraction of equal values, division by zero, products and
  sums of small integers, multiplication by 0.0 / 1.0) are exact in f64,
  so the rational model agrees with the machine bit for bit there; signed
  zeros are collapsed, which no statement below distinguishes.
-/

abbrev Byte := Fin 256

abbrev Color := Byte × Byte × Byte

def M32 : Nat := 4294967296

/-- Wrapping u32 subtraction (release-build semantics), valid for `a b < 2^32`. -/
def u32sub (a b : Nat) : Nat := (a + M32 - b) % M32

/-- Wrapping u32 multiplication. -/
def u32mul (a b : Nat) : Nat := (a * b) % M32

/-- Rust `as u32` on an `i32` value: two's-complement wrap to `[0, 2^32)`. -/
def toU32 (i : Int) : Nat := (i % (M32 : Int)).toNat

/-- An exact fraction: numerator over a positive denominator, not
normalized (every operation below keeps the denominator positive when its
inputs have positive denominators).  This is the payload of the `f64`
model: all comparisons and zero tests go through cross-multiplication, so
the missing normalization is unobservable.  A hand-rolled fraction is used
instead of Mathlib's `ℚ` so that every operation reduces inside the
kernel and concrete runs of the code can be settled by `decide`. -/
structure Q where
  num : Int
  den : Int
deriving DecidableEq

namespace Q

/-- The integer `n` as a fraction. -/
def ofInt (n : Int) : Q := ⟨n, 1⟩

/-- The natural `n` as a fraction. -/
def ofNat (n : Nat) : Q := ⟨(n : Int), 1⟩

instance instOfNatQ : OfNat Q n := ⟨Q.ofNat n⟩

/-- Fraction addition (cross-multiplied, no reduction). -/
def add (a b : Q) : Q := ⟨a.num * b.den + b.num * a.den, a.den * b.den⟩

/-- Fraction subtraction. -/
def sub (a b : Q) : Q := ⟨a.num * b.den - b.num * a.den, a.den * b.den⟩

/-- Fraction multiplication. -/
def mul (a b : Q) : Q := ⟨a.num * b.num, a.den * b.den⟩

/-- Fraction division (the caller never divides by a zero value); the sign
moves to the numerator to keep the denominator positive. -/
def div (a b : Q) : Q :=
  if 0 ≤ b.num then ⟨a.num * b.den, a.den * b.num⟩
  else ⟨-(a.num * b.den), -(a.den * b.num)⟩

/-- Value test against zero: with a positive denominator, a fraction is the
value `0` exactly when its numerator is `0`. -/
def isZero (a : Q) : Bool := a.num = 0

/-- Value test for positivity. -/
def isPos (a : Q) : Bool := 0 < a.num

/-- Value order: `a < b` by cross-multiplication over positive denominators. -/
def blt (a b : Q) : Bool := a.num * b.den < b.num * a.den

/-- Three-way value comparison. -/
def cmp (a b : Q) : Ordering :=
  if a.blt b then .lt else if b.blt a then .gt else .eq

/-- Floor of the fraction's value. -/
def floor (a : Q) : Int := Int.fdiv a.num a.den

/-- Ceiling of the fraction's value. -/
def ceil (a : Q) : Int := -(Int.fdiv (-a.num) a.den)

end Q

/-- Rust `as u8` on an `f64` value known to be a finite rational: saturating
truncation toward zero, clamped into `[0, 255]`.  (Truncation toward zero
and floor agree on nonnegative values; negative values clamp to `0` either
way, so `floor` implements the cast.) -/
def satU8 (q : Q) : Byte :=
  ⟨min 255 (Int.toNat q.floor), Nat.lt_succ_of_le (min_le_left _ _)⟩

/-- The stroke-style enum `LineType` from `utilities/linetype.rs`. -/
inductive LineType where
  | Solid : LineType
  | SolidThick : LineType
  | Dashed : Nat → LineType
  | Dotted : Nat → LineType
  | Squared : Nat → Nat → LineType
deriving DecidableEq

/-- The raster canvas struct from `canvas/pixelcanvas.rs`. -/
structure PixelCanvas where
  width : Nat
  height : Nat
  background_color : Color
  buffer : List Byte
  margin : Nat
deriving DecidableEq

namespace PixelCanvas

/-- `PixelCanvas::new`: zero-filled buffer of `(width * height * 3)` bytes,
the size being computed in u32 arithmetic. -/
def new (width height : Nat) (background_color : Color) (margin : Nat) : PixelCanvas :=
  { width := width
    height := height
    background_color := background_color
    buffer := List.replicate ((width * height * 3) % M32) 0
    margin := margin }

/-- `PixelCanvas::clear`: `buffer.fill(background_color[0])` — every byte is
set to the red channel of the background color only. -/
def clear (c : PixelCanvas) : PixelCanvas :=
  { c with buffer := List.replicate c.buffer.length c.background_color.1 }

/-- The flat buffer index `(y * width + x) * 3`, computed in u32 arithmetic. -/
def pixelIndex (c : PixelCanvas) (x y : Nat) : Nat :=
  ((y * c.width + x) * 3) % M32

/-- Write the three bytes of `col` at offsets `i`, `i+1`, `i+2`. -/
def setTriple (buf : List Byte) (i : Nat) (col : Color) : List Byte :=
  ((buf.set i col.1).set (i + 1) col.2.1).set (i + 2) col.2.2

/-- `PixelCanvas::draw_pixel`: writes the color at the computed index when
`index + 2 < buffer.len()`, otherwise does nothing. -/
def draw_pixel (c : PixelCanvas) (x y : Nat) (color : Color) : PixelCanvas :=
  let index := c.pixelIndex x y
  if index + 2 < c.buffer.length then
    { c with buffer := setTriple c.buffer index color }
  else c

/-- One blended channel: `color*alpha + existing*(1-alpha)` then `as u8`.
For the alphas the claims use (0, 1/2, 1) the f64 arithmetic is exact, so
the rational computation matches the machine. -/
def blendChan (cNew ex : Byte) (alpha : Q) : Byte :=
  satU8 (((Q.ofNat cNew.val).mul alpha).add ((Q.ofNat ex.val).mul ((1 : Q).sub alpha)))

/-- `PixelCanvas::blend_pixel`: reads the existing pixel, blends per channel
with `alpha`, writes back; same bounds guard as `draw_pixel`. -/
def blend_pixel (c : PixelCanvas) (x y : Nat) (color : Color) (alpha : Q) : PixelCanvas :=
  let index := c.pixelIndex x y
  if index + 2 < c.buffer.length then
    let e0 := c.buffer.getD index 0
    let e1 := c.buffer.getD (index + 1) 0
    let e2 := c.buffer.getD (index + 2) 0
    let blended : Color :=
      (blendChan color.1 e0 alpha, blendChan color.2.1 e1 alpha, blendChan color.2.2 e2 alpha)
    { c with buffer := setTriple c.buffer index blended }
  else c

/-- Read the three bytes at offsets `i`, `i+1`, `i+2` of a buffer. -/
def readTriple (buf : List Byte) (i : Nat) : Option Color :=
  (buf[i]?).bind fun r =>
    (buf[i + 1]?).bind fun g =>
      (buf[i + 2]?).map fun b => (r, g, b)

/-- Read the three bytes at the pixel index of `(x, y)`. -/
def readPixel (c : PixelCanvas) (x y : Nat) : Option Color :=
  readTriple c.buffer (c.pixelIndex x y)

end PixelCanvas

/-- The list of naturals `lo, lo+1, ..., hi-1` — the Rust range `lo..hi`
(empty when `hi <= lo`). -/
def natRange (lo hi : Nat) : List Nat :=
  (List.range (hi - lo)).map (lo + ·)

/-- The Rust inclusive range `lo..=hi` stepped by `s` (`step_by`), for `s ≠ 0`:
`lo, lo+s, ...` while `≤ hi`; empty when `lo > hi`. -/
def stepRange (lo hi s : Nat) : List Nat :=
  if lo ≤ hi then (List.range ((hi - lo) / s + 1)).map (fun i => lo + i * s) else []

namespace PixelCanvas

/-- `PixelCanvas::draw_horizontal_line`: `draw_pixel` at every
`x in margin..width - margin` (u32 subtraction wraps). -/
def draw_horizontal_line (c : PixelCanvas) (y : Nat) (color : Color) : PixelCanvas :=
  (natRange c.margin (u32sub c.width c.margin)).foldl
    (fun acc x => acc.draw_pixel x y color) c

/-- `PixelCanvas::draw_vertical_line`: `draw_pixel` at every
`y in margin..height - margin`. -/
def draw_vertical_line (c : PixelCanvas) (x : Nat) (color : Color) : PixelCanvas :=
  (natRange c.margin (u32sub c.height c.margin)).foldl
    (fun acc y => acc.draw_pixel x y color) c

/-- `PixelCanvas::draw_grid`: vertical lines stepped by `grid_size[0]` over
`margin..=width - margin`, then horizontal lines stepped by `grid_size[1]`.
`Iterator::step_by` panics on a zero step, modelled as `none`. -/
def draw_grid (c : PixelCanvas) (grid_size : Nat × Nat) (color : Color) :
    Option PixelCanvas :=
  if grid_size.1 = 0 ∨ grid_size.2 = 0 then none
  else
    let afterV := (stepRange c.margin (u32sub c.width c.margin) grid_size.1).foldl
      (fun acc x => acc.draw_vertical_line x color) c
    some ((stepRange afterV.margin (u32sub afterV.height afterV.margin) grid_size.2).foldl
      (fun acc y => acc.draw_horizontal_line y color) afterV)

/-- One glyph-buffer pixel write of `imageproc::draw_text_mut`: `put_pixel`
on the `width × height` image, which only ever touches in-bounds pixels. -/
def putPix (w h : Nat) (buf : List Byte) (wr : Nat × Nat × Color) : List Byte :=
  if wr.1 < w ∧ wr.2.1 < h then setTriple buf ((wr.2.1 * w + wr.1) * 3) wr.2.2 else buf

/-- `PixelCanvas::draw_text`: copies the buffer into an
`ImageBuffer::from_raw(width, height, ...)` (`None`, hence an `unwrap` panic,
when the buffer holds fewer than `width*height*3` bytes), lets the external
glyph rasterizer `draw_text_mut` write in-bounds pixels — modelled by the
explicit write list `glyphWrites` — and stores the container back.  The
panic is modelled as `none`. -/
def draw_text (c : PixelCanvas) (glyphWrites : List (Nat × Nat × Color)) :
    Option PixelCanvas :=
  if c.width * c.height * 3 ≤ c.buffer.length then
    some { c with buffer := glyphWrites.foldl (putPix c.width c.height) c.buffer }
  else none

/-- Loop body step shared by every `draw_line` style: the error-term update
`e2 = 2*err; if e2 >= dy { err += dy; x += sx }; if e2 <= dx { err += dx; y += sy }`. -/
def bresStep (sx sy dx dy : Int) (x y err : Int) : Int × Int × Int :=
  let e2 := 2 * err
  let s1 : Int × Int := if e2 ≥ dy then (x + sx, err + dy) else (x, err)
  if e2 ≤ dx then (s1.1, y + sy, s1.2 + dx) else (s1.1, y, s1.2)

/-- Iterate a step function `n` times, built directly on `Nat.rec` so that
unfolding one iteration is a single reduction step. -/
def iterateN {α : Type} (f : α → α) : Nat → α → α :=
  fun n => Nat.rec (fun s => s) (fun _ ih => fun s => ih (f s)) n

/-- The `LineType::Solid` loop of `draw_line`: draw, then step, while
`x != x2 || y != y2`.  The loop in the source terminates because each
iteration moves at least one coordinate toward the target; the recursion is
bounded here by explicit fuel, which the callers give generously — once the
target is reached the step function is the identity, so any sufficient fuel
yields the same result as the source loop. -/
def solidLoop (fuel : Nat) (c : PixelCanvas) (x y x2 y2 sx sy dx dy err : Int)
    (color : Color) : PixelCanvas :=
  (iterateN (fun s : PixelCanvas × Int × Int × Int =>
      if s.2.1 = x2 ∧ s.2.2.1 = y2 then s
      else
        let c1 := s.1.draw_pixel (toU32 s.2.1) (toU32 s.2.2.1) color
        let st := bresStep sx sy dx dy s.2.1 s.2.2.1 s.2.2.2
        (c1, st)) fuel (c, x, y, err)).1

/-- The `LineType::SolidThick` loop of `draw_line`: a five-pixel vertical
stripe `y-2 .. y+2` at every visited point. -/
def thickLoop (fuel : Nat) (c : PixelCanvas) (x y x2 y2 sx sy dx dy err : Int)
    (color : Color) : PixelCanvas :=
  (iterateN (fun s : PixelCanvas × Int × Int × Int =>
      if s.2.1 = x2 ∧ s.2.2.1 = y2 then s
      else
        let x0 := s.2.1
        let y0 := s.2.2.1
        let c1 := s.1.draw_pixel (toU32 x0) (toU32 (y0 - 2)) color
        let c2 := c1.draw_pixel (toU32 x0) (toU32 (y0 - 1)) color
        let c3 := c2.draw_pixel (toU32 x0) (toU32 (y0 + 1)) color
        let c4 := c3.draw_pixel (toU32 x0) (toU32 (y0 + 2)) color
        let c5 := c4.draw_pixel (toU32 x0) (toU32 y0) color
        let st := bresStep sx sy dx dy x0 y0 s.2.2.2
        (c5, st)) fuel (c, x, y, err)).1

/-- The `LineType::Dashed`/`LineType::Dotted` loop of `draw_line` (the two
styles share one branch): draw when the `is_drawing` flag is set, bump the
run counter, toggle the flag each time the counter reaches `dash_length`.
Returns the canvas and the flag value at loop exit. -/
def dashedLoop (fuel : Nat) (c : PixelCanvas) (x y x2 y2 sx sy dx dy err : Int)
    (color : Color) (dashLength : Nat) (drawing : Bool) (seg : Nat) :
    PixelCanvas × Bool :=
  let r := iterateN (fun s : PixelCanvas × Int × Int × Int × Bool × Nat =>
      if s.2.1 = x2 ∧ s.2.2.1 = y2 then s
      else
        let drawing0 := s.2.2.2.2.1
        let c1 := if drawing0 then s.1.draw_pixel (toU32 s.2.1) (toU32 s.2.2.1) color else s.1
        let seg1 := s.2.2.2.2.2 + 1
        let sd : Bool × Nat := if seg1 = dashLength then (!drawing0, 0) else (drawing0, seg1)
        let st := bresStep sx sy dx dy s.2.1 s.2.2.1 s.2.2.2.1
        (c1, st.1, st.2.1, st.2.2, sd)) fuel (c, x, y, err, drawing, seg)
  (r.1, r.2.2.2.2.1)

/-- The control flow of the `Dashed`/`Dotted` loop in isolation: the list
of visited pixels painted while the flag is on, and the flag value at loop
exit.  Pure bookkeeping — no canvas — so concrete runs evaluate cheaply;
`dashedLoop` is proved equal to a `draw_pixel` fold over this trace. -/
def dashedTrace (fuel : Nat) (x y x2 y2 sx sy dx dy err : Int)
    (dashLength : Nat) (drawing : Bool) (seg : Nat) : List (Int × Int) × Bool :=
  match fuel with
  | 0 => ([], drawing)
  | fuel + 1 =>
    if x = x2 ∧ y = y2 then ([], drawing)
    else
      let firstPix : List (Int × Int) := if drawing then [(x, y)] else []
      let seg1 := seg + 1
      let sd : Bool × Nat := if seg1 = dashLength then (!drawing, 0) else (drawing, seg1)
      let st := bresStep sx sy dx dy x y err
      let rest := dashedTrace fuel st.1 st.2.1 x2 y2 sx sy dx dy st.2.2 dashLength sd.1 sd.2
      (firstPix ++ rest.1, rest.2)

/-- `PixelCanvas::draw_line` from `canvas/pixelcanvas.rs`: Bresenham setup
(`dx = |x2-x1|`, `dy = -|y2-y1|`, unit steps, `err = dx + dy`) followed by
the per-style loop.  The `Squared(gap, side_length)` branch only binds dead
local variables and draws nothing.  Loop fuel `dx - dy + 1` covers every
visited pixel of the terminating source loop. -/
def draw_line (c : PixelCanvas) (x1 y1 x2 y2 : Int) (color : Color)
    (line_type : LineType) : PixelCanvas :=
  let dx := |x2 - x1|
  let dy := -|y2 - y1|
  let sx : Int := if x1 < x2 then 1 else -1
  let sy : Int := if y1 < y2 then 1 else -1
  let err := dx + dy
  let fuel := (dx - dy + 1).toNat
  match line_type with
  | .Solid =>
    let c1 := solidLoop fuel c x1 y1 x2 y2 sx sy dx dy err color
    c1.draw_pixel (toU32 x2) (toU32 y2) color
  | .SolidThick =>
    let c1 := thickLoop fuel c x1 y1 x2 y2 sx sy dx dy err color
    c1.draw_pixel (toU32 x2) (toU32 y2) color
  | .Dashed dash_length | .Dotted dash_length =>
    let r := dashedLoop fuel c x1 y1 x2 y2 sx sy dx dy err color dash_length true 0
    if r.2 then r.1.draw_pixel (toU32 x2) (toU32 y2) color else r.1
  | .Squared _ _ => c

/-- `PixelCanvas::save_as_image` terminates in one of two ways: a normal
return, or a panic out of one of its two `expect` calls. -/
inductive SaveOutcome where
  | returned : SaveOutcome
  | panicked : String → SaveOutcome
deriving DecidableEq

/-- `PixelCanvas::save_as_image`: `ImageBuffer::from_raw` yields `None`
(so `expect` panics) when the buffer is shorter than `width*height*3`;
otherwise `img.save` runs, and `expect` panics when the filesystem write
fails — the external filesystem is modelled by the flag `ioOk`.  The
function returns unit; it has no error channel. -/
def save_as_image (c : PixelCanvas) (ioOk : Bool) : SaveOutcome :=
  if c.width * c.height * 3 ≤ c.buffer.length then
    if ioOk then .returned else .panicked "Failed to save image"
  else .panicked "Failed to create image buffer"

end PixelCanvas

/-- Exact model of `f64` for the computations the library performs: a
rational payload plus the IEEE-754 special values.  Signed zeros are
collapsed into `finite 0`. -/
inductive F where
  | finite : Q → F
  | inf : F
  | negInf : F
  | nan : F
deriving DecidableEq

namespace F

/-- IEEE subtraction on the modelled values (exact on the finite payloads;
`f64` subtraction of equal finite values is exactly `0`, which is the case
every claim below exercises). -/
def sub : F → F → F
  | nan, _ => nan
  | _, nan => nan
  | finite a, finite b => finite (a.sub b)
  | finite _, inf => negInf
  | finite _, negInf => inf
  | inf, finite _ => inf
  | inf, negInf => inf
  | inf, inf => nan
  | negInf, finite _ => negInf
  | negInf, inf => negInf
  | negInf, negInf => nan

/-- IEEE multiplication on the modelled values. -/
def mul : F → F → F
  | nan, _ => nan
  | _, nan => nan
  | finite a, finite b => finite (a.mul b)
  | finite a, inf => if a.isZero then nan else if a.isPos then inf else negInf
  | finite a, negInf => if a.isZero then nan else if a.isPos then negInf else inf
  | inf, finite b => if b.isZero then nan else if b.isPos then inf else negInf
  | inf, inf => inf
  | inf, negInf => negInf
  | negInf, finite b => if b.isZero then nan else if b.isPos then negInf else inf
  | negInf, inf => negInf
  | negInf, negInf => inf

/-- IEEE division on the modelled values; the claims exercise the
`finite / finite 0` row, where f64 yields `±inf`, or `nan` for `0/0`. -/
def div : F → F → F
  | nan, _ => nan
  | _, nan => nan
  | finite a, finite b =>
    if b.isZero then (if a.isZero then nan else if a.isPos then inf else negInf)
    else finite (a.div b)
  | finite _, inf => finite 0
  | finite _, negInf => finite 0
  | inf, finite b => if b.blt 0 then negInf else inf
  | negInf, finite b => if b.blt 0 then inf else negInf
  | inf, inf => nan
  | inf, negInf => nan
  | negInf, inf => nan
  | negInf, negInf => nan

/-- A `u32` (or small integer) converted to `f64` — always exact. -/
def ofNat (n : Nat) : F := finite (Q.ofNat n)

/-- An `i32` converted to `f64` — always exact. -/
def ofInt (i : Int) : F := finite (Q.ofInt i)

/-- Truncation toward zero of a fraction's value. -/
def truncQ (q : Q) : Int := if q.blt 0 then q.ceil else q.floor

/-- Rust `as i32` on an `f64`: saturating cast — `NaN` maps to `0`,
infinities to the extreme `i32` values, finite values truncate toward zero
and clamp into the `i32` range. -/
def toI32 : F → Int
  | nan => 0
  | inf => 2147483647
  | negInf => -2147483648
  | finite q => max (-2147483648) (min 2147483647 (truncQ q))

/-- Whether the value is finite (neither infinite nor `NaN`). -/
def isFinite : F → Bool
  | finite _ => true
  | _ => false

/-- `f64::partial_cmp`: `none` when either side is `NaN`. -/
def pcmp : F → F → Option Ordering
  | nan, _ => none
  | _, nan => none
  | finite a, finite b => some (a.cmp b)
  | finite _, inf => some .lt
  | finite _, negInf => some .gt
  | inf, finite _ => some .gt
  | negInf, finite _ => some .lt
  | inf, inf => some .eq
  | negInf, negInf => some .eq
  | inf, negInf => some .gt
  | negInf, inf => some .lt

end F

/-- The scale computation shared verbatim by `AreaChart::draw`
(`drawerareachart.rs` lines 263–264), `AreaChart::find_closest_point`
(`hoverareachart.rs` lines 97–98) and `AreaChart::to_canvas_coordinates`
(`hoverareachart.rs` lines 117–118):
`(extent - 2 * margin) as f64 / (data_max - data_min)`, the numerator in
wrapping u32 arithmetic. -/
def scaleCalc (extent margin : Nat) (dataMax dataMin : F) : F :=
  (F.ofNat (u32sub extent (u32mul 2 margin))).div (dataMax.sub dataMin)

/-- Round half to even — the rounding Rust's formatter applies to the exact
decimal value when a precision is requested. -/
def rhe (q : Q) : Int :=
  let f := q.floor
  let r := q.sub (Q.ofInt f)
  if r.blt ⟨1, 2⟩ then f
  else if (Q.mk 1 2).blt r then f + 1
  else if f % 2 = 0 then f else f + 1

/-- Rust `format!` with the `{:.2}` specifier on a finite `f64`: the value
rounded to two decimals, printed with exactly two digits after the point. -/
def fmt2 (q : Q) : String :=
  let n := rhe (q.mul (Q.ofNat 100))
  let m := n.natAbs
  let d1 := Char.ofNat (48 + m % 100 / 10)
  let d2 := Char.ofNat (48 + m % 10)
  (if n < 0 then "-" else "") ++ toString (m / 100) ++ "." ++ String.mk [d1, d2]

/-- Rust `format!` with the default `{}` specifier on a finite `f64`: the
shortest decimal string that round-trips.  For values whose exact decimal
expansion terminates within 40 digits — every value the library passes to
it — this is the exact expansion with no trailing zeros, and no decimal
point at all for integers. -/
def fmtDisplay (q : Q) : String :=
  match (List.range 40).find? (fun k => (q.num * 10 ^ k) % q.den = 0) with
  | some 0 => toString (Int.fdiv q.num q.den)
  | some k =>
    let v := Int.fdiv (q.num * 10 ^ k) q.den
    let m := v.natAbs
    let fracStr := toString (m % 10 ^ k)
    (if v < 0 then "-" else "") ++ toString (m / 10 ^ k) ++ "." ++
      String.mk (List.replicate (k - fracStr.length) (Char.ofNat 48)) ++ fracStr
  | none => toString q.num ++ "/" ++ toString q.den

/-- The SVG canvas struct from `canvas/svgcanvas.rs`. -/
structure SvgCanvas where
  width : Nat
  height : Nat
  elements : List String
  margin : Nat
  background_color : String
deriving DecidableEq

/-- The XML declaration plus `<svg ...>` opening element that
`SvgCanvas::new` pushes as the first fragment. -/
def svgHeader (w h : Nat) : String :=
  "<?xml version=\"1.0\" encoding=\"UTF-8\"?>\n<svg xmlns=\"http://www.w3.org/2000/svg\" viewBox=\"0 0 "
    ++ toString w ++ " " ++ toString h ++ "\">"

namespace SvgCanvas

/-- `SvgCanvas::new`: stores dimensions and pushes the header fragment. -/
def new (width height : Nat) (background_color : String) (margin : Nat) : SvgCanvas :=
  { width := width
    height := height
    elements := [svgHeader width height]
    margin := margin
    background_color := background_color }

/-- `SvgCanvas::clear`: `self.elements.clear()` — removes every fragment,
the header included. -/
def clear (c : SvgCanvas) : SvgCanvas :=
  { c with elements := [] }

/-- `SvgCanvas::draw_line`: pushes a `<line>` fragment; every numeric
attribute goes through `{:.2}`. -/
def draw_line (c : SvgCanvas) (x1 y1 x2 y2 : Q) (color : String) (stroke_width : Q) :
    SvgCanvas :=
  { c with elements := c.elements ++
      ["<line x1=\"" ++ fmt2 x1 ++ "\" y1=\"" ++ fmt2 y1 ++ "\" x2=\"" ++ fmt2 x2
        ++ "\" y2=\"" ++ fmt2 y2 ++ "\" stroke=\"" ++ color ++ "\" stroke-width=\""
        ++ fmt2 stroke_width ++ "\"/>"] }

/-- `SvgCanvas::draw_rect`: pushes a `<rect>` fragment; `x`, `y`, `width`,
`height` and `stroke-width` go through `{:.2}` but `fill-opacity` goes
through the default `{}` formatter. -/
def draw_rect (c : SvgCanvas) (x y w h : Q) (fill_color stroke_color : String)
    (stroke_width opacity : Q) : SvgCanvas :=
  { c with elements := c.elements ++
      ["<rect x=\"" ++ fmt2 x ++ "\" y=\"" ++ fmt2 y ++ "\" width=\"" ++ fmt2 w
        ++ "\" height=\"" ++ fmt2 h ++ "\" fill=\"" ++ fill_color ++ "\" stroke=\""
        ++ stroke_color ++ "\" stroke-width=\"" ++ fmt2 stroke_width
        ++ "\" fill-opacity=\"" ++ fmtDisplay opacity ++ "\"/>"] }

/-- Modelled from the spec: the `<rect>` fragment `draw_rect` would emit if,
as the spec states, every numeric attribute — `fill-opacity` included —
were formatted with exactly 2 decimal digits. -/
def draw_rect_spec2dec (c : SvgCanvas) (x y w h : Q) (fill_color stroke_color : String)
    (stroke_width opacity : Q) : SvgCanvas :=
  { c with elements := c.elements ++
      ["<rect x=\"" ++ fmt2 x ++ "\" y=\"" ++ fmt2 y ++ "\" width=\"" ++ fmt2 w
        ++ "\" height=\"" ++ fmt2 h ++ "\" fill=\"" ++ fill_color ++ "\" stroke=\""
        ++ stroke_color ++ "\" stroke-width=\"" ++ fmt2 stroke_width
        ++ "\" fill-opacity=\"" ++ fmt2 opacity ++ "\"/>"] }

/-- `SvgCanvas::draw_circle`: pushes a `<circle>` fragment, all numeric
attributes through `{:.2}`. -/
def draw_circle (c : SvgCanvas) (cx cy r : Q) (color : String) : SvgCanvas :=
  { c with elements := c.elements ++
      ["<circle cx=\"" ++ fmt2 cx ++ "\" cy=\"" ++ fmt2 cy ++ "\" r=\"" ++ fmt2 r
        ++ "\" fill=\"" ++ color ++ "\"/>"] }

/-- `SvgCanvas::draw_text`: pushes a `<text>` fragment, numeric attributes
through `{:.2}`. -/
def draw_text (c : SvgCanvas) (x y : Q) (text : String) (font_size : Q)
    (color : String) : SvgCanvas :=
  { c with elements := c.elements ++
      ["<text x=\"" ++ fmt2 x ++ "\" y=\"" ++ fmt2 y ++ "\" font-size=\""
        ++ fmt2 font_size ++ "\" text-anchor=\"middle\" fill=\"" ++ color ++ "\">"
        ++ text ++ "</text>"] }

/-- `SvgCanvas::draw_title`: identical fragment shape to `draw_text`. -/
def draw_title (c : SvgCanvas) (x y : Q) (text : String) (font_size : Q)
    (color : String) : SvgCanvas :=
  { c with elements := c.elements ++
      ["<text x=\"" ++ fmt2 x ++ "\" y=\"" ++ fmt2 y ++ "\" font-size=\""
        ++ fmt2 font_size ++ "\" text-anchor=\"middle\" fill=\"" ++ color ++ "\">"
        ++ text ++ "</text>"] }

/-- The document text `SvgCanvas::save` writes on a successful save: each
accumulated fragment on its own line in insertion order, then the single
closing tag. -/
def saveContent (c : SvgCanvas) : String :=
  String.join (c.elements.map (· ++ "\n")) ++ "</svg>\n"

/-- `SvgCanvas::get_svg_as_text`: the fragments concatenated, then the
closing tag. -/
def get_svg_as_text (c : SvgCanvas) : String :=
  String.join c.elements ++ "</svg>"

end SvgCanvas

/-- The area-chart dataset from `datasets/areachartdataset.rs`. -/
structure AreaChartDataset where
  alpha : Q
  points : List (F × F)
  color : Color
  label : String

namespace AreaChart

/-- The comparator of `AreaChart::draw_area`'s sort:
`a.0.partial_cmp(&b.0).unwrap_or(Ordering::Equal)`. -/
def cmpPoints (a b : F × F) : Ordering :=
  (F.pcmp a.1 b.1).getD .eq

/-- Stable insertion of a point into an already-sorted list: placed before
the first element that compares greater. -/
def insSorted (x : F × F) : List (F × F) → List (F × F)
  | [] => [x]
  | y :: ys => if cmpPoints y x = .lt then y :: insSorted x ys else x :: y :: ys

/-- A stable sort by the comparator above.  `Vec::sort_by` is a stable sort;
whenever the comparator is a total preorder (in particular whenever no
x-coordinate is `NaN`, true of every input below) all stable sorts agree,
so this insertion sort computes the same list the source does. -/
def stableSortPoints : List (F × F) → List (F × F)
  | [] => []
  | x :: xs => insSorted x (stableSortPoints xs)

/-- Adjacent pairs — `slice::windows(2)`. -/
def windowsPairs : List α → List (α × α)
  | a :: b :: l => (a, b) :: windowsPairs (b :: l)
  | _ => []

/-- The Rust inclusive integer range `lo..=hi` as a list. -/
def intRangeIncl (lo hi : Int) : List Int :=
  (List.range (hi + 1 - lo).toNat).map (fun i => lo + i)

/-- Mapped pixel x-coordinate of a data point:
`origin_x + (p.0 * scale_x) as i32`. -/
def mapX (origin_x : Int) (scale_x : F) (p : F × F) : Int :=
  origin_x + (p.1.mul scale_x).toI32

/-- Mapped pixel y-coordinate of a data point:
`origin_y - (p.1 * scale_y) as i32`. -/
def mapY (origin_y : Int) (scale_y : F) (p : F × F) : Int :=
  origin_y - (p.2.mul scale_y).toI32

/-- The body `AreaChart::draw_area` runs for one adjacent point pair: for
every column `x` in `min x1 x2 ..= max x1 x2`, compute
`y1 + ((x - x1) as f64 * (y2 - y1) as f64 / (x2 - x1).abs() as f64) as i32`
and blend every pixel from there down to `origin_y`. -/
def fillWindow (origin_x origin_y : Int) (scale_x scale_y : F) (color : Color)
    (alpha : Q) (c : PixelCanvas) (p : (F × F) × (F × F)) : PixelCanvas :=
  let x1 := mapX origin_x scale_x p.1
  let y1 := mapY origin_y scale_y p.1
  let x2 := mapX origin_x scale_x p.2
  let y2 := mapY origin_y scale_y p.2
  (intRangeIncl (min x1 x2) (max x1 x2)).foldl
    (fun acc x =>
      let iy := y1 + (((F.ofInt (x - x1)).mul (F.ofInt (y2 - y1))).div
        (F.ofInt |x2 - x1|)).toI32
      (intRangeIncl iy origin_y).foldl
        (fun acc2 y => acc2.blend_pixel (toU32 x) (toU32 y) color alpha) acc)
    c

/-- `AreaChart::draw_area` from `figuretypes/areachart.rs`: clone the
points, sort them by x with the NaN-tolerant comparator, then run
`fillWindow` over each adjacent pair. -/
def draw_area (c : PixelCanvas) (dataset : AreaChartDataset)
    (origin_x origin_y : Int) (scale_x scale_y : F) : PixelCanvas :=
  let points := stableSortPoints dataset.points
  (windowsPairs points).foldl
    (fillWindow origin_x origin_y scale_x scale_y dataset.color dataset.alpha) c

end AreaChart

set_option maxRecDepth 100000

def c5canvas : PixelCanvas :=
  AreaChart.draw_area (PixelCanvas.new 12 12 (0, 0, 0) 0)
    { alpha := Q.mk 1 2
      points := [(F.finite 1, F.finite 1), (F.finite 1, F.finite 2)]
      color := (100, 100, 100)
      label := "ds" }
    0 10 (F.finite 1) (F.finite 1)

/-- A canvas whose buffer length does not match `width * height * 3`. -/
def shortCanvas : PixelCanvas :=
  { width := 2, height := 2, background_color := (0, 0, 0), buffer := [], margin := 0 }

/-- Two canvases agree on every field except possibly the buffer contents,
and their buffers have equal length — the shape every drawing operation
must preserve. -/
def sameShape (a b : PixelCanvas) : Prop :=
  b.width = a.width ∧ b.height = a.height ∧ b.margin = a.margin ∧
  b.background_color = a.background_color ∧ b.buffer.length = a.buffer.length

/-- The buffer invariant established by `PixelCanvas::new`:
`buffer.len() == width * height * 3`. -/
def bufInv (c : PixelCanvas) : Prop :=
  c.buffer.length = c.width * c.height * 3

/-- The end-to-end scenario of C6: a `Dashed(2)` line from `(0,0)` to
`(9,9)` on a fresh 10×10 canvas with margin 0. -/
def dashedScenario (color : Color) : PixelCanvas :=
  (PixelCanvas.new 10 10 (255, 255, 255) 0).draw_line 0 0 9 9 color (.Dashed 2)


/-! Helper lemmas shared by the claim theorems. -/

/-- Setting an entry of a list to the value it already holds (read through
`getD`) changes nothing. -/
theorem set_getD_self (l : List Byte) (i : Nat) (h : i < l.length) :
    l.set i (l.getD i 0) = l := by
  induction l generalizing i with
  | nil => simp at h
  | cons a l ih =>
    cases i with
    | zero => simp [List.getD]
    | succ j =>
      simp only [List.set, List.getD, List.getElem?_cons_succ]
      have hj : j < l.length := by simpa using h
      have := ih j hj
      simpa [List.getD] using this

/-- Integer floor-division by one is the identity. -/
theorem int_fdiv_one (n : Int) : Int.fdiv n 1 = n := by
  cases n with
  | ofNat m => show Int.fdiv (Int.ofNat m) (Int.ofNat 1) = Int.ofNat m
               cases m <;> simp [Int.fdiv]
  | negSucc m => simp [Int.fdiv]

/-! ## C1 — scale computation on a degenerate extent -/

/-- Counterexample to C1 as stated: with a degenerate extent
(`data_max = data_min = 5`) and a drawable width `800 - 2*50 = 700`, the
scale computation used by `draw`, `find_closest_point` and
`to_canvas_coordinates` evaluates to positive infinity — not to any finite
fallback value. -/
theorem claim1_counterexample :
    scaleCalc 800 50 (F.finite 5) (F.finite 5) = F.inf ∧ F.inf.isFinite = false := by
  constructor
  · decide
  · rfl

/-- C1 amended: whenever `data_max == data_min` the scale computed by
`draw`, `find_closest_point` and `to_canvas_coordinates` is never finite —
it is `+inf`, `-inf`, or `NaN` (`NaN` exactly when the drawable extent is
also zero); no fallback of any kind exists in the code. -/
theorem claim1_theorem (extent margin : Nat) (v : F) :
    (scaleCalc extent margin v v).isFinite = false := by
  cases v with
  | finite q =>
    simp only [scaleCalc, F.sub, F.ofNat, F.div, Q.sub, Q.isZero, sub_self]
    norm_num
    split
    · rfl
    · split <;> rfl
  | inf => rfl
  | negInf => rfl
  | nan => rfl

/-! ## C3 — the Squared line style -/

/-- Counterexample to C3 as stated: a concrete `Squared(2, 3)` line request
leaves the canvas — buffer included — exactly as it was, and `draw_line`
returns unit with no error channel, so no "unsupported" signal of any kind
reaches the caller. -/
theorem claim3_counterexample :
    (PixelCanvas.new 10 10 (0, 0, 0) 0).draw_line 0 0 9 9 (40, 140, 240)
      (.Squared 2 3) = PixelCanvas.new 10 10 (0, 0, 0) 0 := by
  decide

/-- C3 amended: for every canvas, every pair of endpoints and every color,
`draw_line` with the `Squared(gap, side_length)` style is a silent no-op:
the `Squared` match arm only binds dead local variables, raises nothing,
and returns the canvas unchanged. -/
theorem claim3_theorem (c : PixelCanvas) (x1 y1 x2 y2 : Int) (color : Color)
    (gap side : Nat) :
    c.draw_line x1 y1 x2 y2 color (.Squared gap side) = c := rfl

/-! ## C4 — saving the raster surface -/

/-- Counterexample to C4 as stated: `save_as_image` returns unit, not a
`Result`; on a buffer whose length does not equal `width*height*3` it
panics out of `expect` ("Failed to create image buffer"), and on a failed
filesystem write it panics out of the second `expect` — no I/O error value
is ever surfaced to the caller. -/
theorem claim4_counterexample :
    shortCanvas.buffer.length ≠ shortCanvas.width * shortCanvas.height * 3 ∧
    shortCanvas.save_as_image true =
      .panicked "Failed to create image buffer" ∧
    (PixelCanvas.new 2 2 (0, 0, 0) 0).save_as_image false =
      .panicked "Failed to save image" := by
  refine ⟨by decide, by decide, by decide⟩

/-- C4 amended: `save_as_image` returns unit and panics — via
`expect("Failed to create image buffer")` when the buffer is shorter than
`width*height*3`, and via `expect("Failed to save image")` when the
filesystem write fails; it never returns an error value. -/
theorem claim4_theorem (c : PixelCanvas) (ioOk : Bool) :
    (c.buffer.length < c.width * c.height * 3 →
      c.save_as_image ioOk = .panicked "Failed to create image buffer") ∧
    (c.width * c.height * 3 ≤ c.buffer.length → ioOk = false →
      c.save_as_image ioOk = .panicked "Failed to save image") ∧
    (c.width * c.height * 3 ≤ c.buffer.length → ioOk = true →
      c.save_as_image ioOk = .returned) := by
  refine ⟨fun h => ?_, fun h hio => ?_, fun h hio => ?_⟩
  · simp [PixelCanvas.save_as_image, Nat.not_le.mpr h]
  · subst hio; simp [PixelCanvas.save_as_image, h]
  · subst hio; simp [PixelCanvas.save_as_image, h]

/-- Witness for the amended C4 at concrete inputs: the empty-buffer canvas
panics on the buffer check, and a well-formed canvas panics on a failing
write and returns on a successful one. -/
theorem claim4_witness :
    shortCanvas.save_as_image true = .panicked "Failed to create image buffer" ∧
    (PixelCanvas.new 2 2 (0, 0, 0) 0).save_as_image false =
      .panicked "Failed to save image" ∧
    (PixelCanvas.new 2 2 (0, 0, 0) 0).save_as_image true = .returned :=
  ⟨(claim4_theorem shortCanvas true).1 (by decide),
   (claim4_theorem (PixelCanvas.new 2 2 (0, 0, 0) 0) false).2.1 (by decide) rfl,
   (claim4_theorem (PixelCanvas.new 2 2 (0, 0, 0) 0) true).2.2 (by decide) rfl⟩

/-! ## C10 — clearing the SVG canvas -/

/-- C10 confirmed: `SvgCanvas::clear` empties the whole fragment list —
header included — so `get_svg_as_text` right after a `clear` is exactly the
closing tag; and the header fragment exists only because `new` pushed it as
the (sole) initial element. -/
theorem claim10_theorem (c : SvgCanvas) (w h : Nat) (bg : String) (m : Nat) :
    c.clear.elements = [] ∧
    c.clear.get_svg_as_text = "</svg>" ∧
    (SvgCanvas.new w h bg m).elements = [svgHeader w h] := by
  refine ⟨rfl, ?_, rfl⟩
  show String.join [] ++ "</svg>" = "</svg>"
  rfl

/-! ## C7 — blending at alpha 1 and alpha 0 -/

/-- Numeric literals of `Q` are `Q.ofNat`. -/
theorem q_lit (n : Nat) : (OfNat.ofNat n : Q) = Q.ofNat n := rfl

/-- Blending a channel at alpha `1` yields exactly the new byte: the f64
products and sum are exact integers, and the `as u8` cast is the identity
on `[0, 255]`. -/
theorem blendChan_one (a e : Byte) : PixelCanvas.blendChan a e 1 = a := by
  apply Fin.ext
  simp [PixelCanvas.blendChan, satU8, Q.mul, Q.add, Q.sub, q_lit, Q.ofNat, Q.floor,
    int_fdiv_one]
  omega

/-- Blending a channel at alpha `0` yields exactly the existing byte. -/
theorem blendChan_zero (a e : Byte) : PixelCanvas.blendChan a e 0 = e := by
  apply Fin.ext
  simp [PixelCanvas.blendChan, satU8, Q.mul, Q.add, Q.sub, q_lit, Q.ofNat, Q.floor,
    int_fdiv_one]
  omega

/-- C7 confirmed: on every canvas (in-bounds or not — both functions share
the same bounds guard), `blend_pixel` at alpha `1.0` produces exactly the
canvas `draw_pixel` produces, and `blend_pixel` at alpha `0.0` leaves the
canvas — every byte of the buffer — unchanged. -/
theorem claim7_theorem (c : PixelCanvas) (x y : Nat) (col : Color) :
    c.blend_pixel x y col 1 = c.draw_pixel x y col ∧
    c.blend_pixel x y col 0 = c := by
  constructor
  · unfold PixelCanvas.blend_pixel PixelCanvas.draw_pixel
    by_cases h : c.pixelIndex x y + 2 < c.buffer.length
    · simp only [h, if_true, blendChan_one]
    · simp only [h, if_false]
  · unfold PixelCanvas.blend_pixel
    by_cases h : c.pixelIndex x y + 2 < c.buffer.length
    · simp only [h, if_true, blendChan_zero]
      show { c with buffer := PixelCanvas.setTriple c.buffer (c.pixelIndex x y) _ } = c
      unfold PixelCanvas.setTriple
      rw [set_getD_self c.buffer (c.pixelIndex x y) (by omega),
        set_getD_self c.buffer (c.pixelIndex x y + 1) (by omega),
        set_getD_self c.buffer (c.pixelIndex x y + 2) (by omega)]
    · simp only [h, if_false]

/-! ## C2 — draw_pixel in and out of bounds -/

/-- Reading back the three offsets written by `setTriple`. -/
theorem setTriple_reads (buf : List Byte) (i : Nat) (col : Color)
    (h : i + 2 < buf.length) :
    (PixelCanvas.setTriple buf i col)[i]? = some col.1 ∧
    (PixelCanvas.setTriple buf i col)[i + 1]? = some col.2.1 ∧
    (PixelCanvas.setTriple buf i col)[i + 2]? = some col.2.2 := by
  unfold PixelCanvas.setTriple
  refine ⟨?_, ?_, ?_⟩
  · rw [List.getElem?_set_ne (by omega), List.getElem?_set_ne (by omega)]
    exact List.getElem?_set_eq_of_lt _ (by omega)
  · rw [List.getElem?_set_ne (by omega)]
    exact List.getElem?_set_eq_of_lt _ (by simp; omega)
  · exact List.getElem?_set_eq_of_lt _ (by simp; omega)

/-- Counterexample to C2 as stated: on a 10×10 canvas the call
`draw_pixel(10, 0, color)` is out of bounds (`x = width`), yet it is not a
no-op — the guard only checks the flat index against the buffer length, so
the write lands at offset 30 and corrupts the in-bounds pixel `(0, 1)`. -/
theorem claim2_counterexample :
    (PixelCanvas.new 10 10 (0, 0, 0) 0).width ≤ 10 ∧
    (PixelCanvas.new 10 10 (0, 0, 0) 0).draw_pixel 10 0 (9, 9, 9) ≠
      PixelCanvas.new 10 10 (0, 0, 0) 0 ∧
    ((PixelCanvas.new 10 10 (0, 0, 0) 0).draw_pixel 10 0 (9, 9, 9)).readPixel 0 1 =
      some (9, 9, 9) := by
  refine ⟨by decide, by decide, by decide⟩

/-- C2 amended: for coordinates inside the canvas (`x < width`,
`y < height`) a `draw_pixel` followed by reading the three bytes at
`(y*width + x)*3` returns exactly the written color; and a call is a
complete no-op exactly when the flat index fails the buffer-length guard
`(y*width + x)*3 + 2 < buffer.len()` — out-of-bounds coordinates whose
flat index still lands inside the buffer are *not* dropped and alias
another pixel. -/
theorem claim2_theorem (c : PixelCanvas) (x y : Nat) (col : Color) :
    (c.buffer.length = c.width * c.height * 3 → c.width * c.height * 3 < M32 →
      x < c.width → y < c.height →
      (c.draw_pixel x y col).readPixel x y = some col) ∧
    (c.buffer.length ≤ c.pixelIndex x y + 2 → c.draw_pixel x y col = c) := by
  constructor
  · intro hlen hM hx hy
    have h2 : (y + 1) * c.width ≤ c.height * c.width :=
      Nat.mul_le_mul_right c.width (Nat.succ_le_of_lt hy)
    have hw : (y + 1) * c.width = y * c.width + c.width := Nat.succ_mul y c.width
    have hcomm : c.height * c.width = c.width * c.height := Nat.mul_comm _ _
    have hidx : (y * c.width + x) * 3 + 2 < c.width * c.height * 3 := by omega
    unfold PixelCanvas.draw_pixel PixelCanvas.readPixel PixelCanvas.readTriple
      PixelCanvas.pixelIndex
    have hmod : ((y * c.width + x) * 3) % M32 = (y * c.width + x) * 3 :=
      Nat.mod_eq_of_lt (by omega)
    rw [hmod, if_pos (by omega)]
    obtain ⟨l1, l2, l3⟩ := setTriple_reads c.buffer ((y * c.width + x) * 3) col (by omega)
    simp [hmod, l1, l2, l3]
  · intro h
    unfold PixelCanvas.draw_pixel
    rw [if_neg (by omega)]

/-- Witness for the amended C2 at concrete inputs: an in-bounds write on a
4×4 canvas reads back, and a call whose flat index exceeds the buffer is a
no-op. -/
theorem claim2_witness :
    ((PixelCanvas.new 4 4 (0, 0, 0) 0).draw_pixel 1 2 (5, 6, 7)).readPixel 1 2 =
      some (5, 6, 7) ∧
    (PixelCanvas.new 4 4 (0, 0, 0) 0).draw_pixel 100 100 (5, 6, 7) =
      PixelCanvas.new 4 4 (0, 0, 0) 0 :=
  ⟨(claim2_theorem (PixelCanvas.new 4 4 (0, 0, 0) 0) 1 2 (5, 6, 7)).1
      (by decide) (by decide) (by decide) (by decide),
   (claim2_theorem (PixelCanvas.new 4 4 (0, 0, 0) 0) 100 100 (5, 6, 7)).2 (by decide)⟩


/-! ## C6 — the Dashed(2) diagonal scenario -/

/-- Zero iterations: the state is returned unchanged. -/
theorem iterateN_zero {α : Type} (f : α → α) (s : α) :
    PixelCanvas.iterateN f 0 s = s := rfl

/-- Unfolding one iteration. -/
theorem iterateN_succ {α : Type} (f : α → α) (n : Nat) (s : α) :
    PixelCanvas.iterateN f (n + 1) s = PixelCanvas.iterateN f n (f s) := rfl

/-- `draw_pixel` never changes the canvas width. -/
theorem draw_pixel_width (c : PixelCanvas) (x y : Nat) (col : Color) :
    (c.draw_pixel x y col).width = c.width := by
  unfold PixelCanvas.draw_pixel
  dsimp only
  split <;> rfl

/-- The buffer `draw_pixel` produces, as a conditional at the list level. -/
theorem draw_pixel_buffer (c : PixelCanvas) (x y : Nat) (col : Color) :
    (c.draw_pixel x y col).buffer =
    if c.pixelIndex x y + 2 < c.buffer.length then
      PixelCanvas.setTriple c.buffer (c.pixelIndex x y) col
    else c.buffer := by
  unfold PixelCanvas.draw_pixel
  dsimp only
  split <;> rfl

/-- `setTriple` keeps the buffer length. -/
theorem setTriple_length (buf : List Byte) (i : Nat) (col : Color) :
    (PixelCanvas.setTriple buf i col).length = buf.length := by
  simp [PixelCanvas.setTriple]

/-- `draw_pixel` keeps the buffer length. -/
theorem draw_pixel_length (c : PixelCanvas) (x y : Nat) (col : Color) :
    (c.draw_pixel x y col).buffer.length = c.buffer.length := by
  rw [draw_pixel_buffer]
  split
  · exact setTriple_length ..
  · rfl

/-- The pixel index is computed from the width only, which `draw_pixel`
keeps. -/
theorem draw_pixel_pixelIndex (c : PixelCanvas) (x y u v : Nat) (col : Color) :
    (c.draw_pixel x y col).pixelIndex u v = c.pixelIndex u v := by
  unfold PixelCanvas.pixelIndex
  rw [draw_pixel_width]

/-- Reading a triple outside the three offsets written by `setTriple` sees
the original buffer. -/
theorem readTriple_setTriple_other (buf : List Byte) (i j : Nat) (col : Color)
    (h : i + 2 < j ∨ j + 2 < i) :
    PixelCanvas.readTriple (PixelCanvas.setTriple buf i col) j =
      PixelCanvas.readTriple buf j := by
  unfold PixelCanvas.readTriple PixelCanvas.setTriple
  rw [List.getElem?_set_ne (by omega), List.getElem?_set_ne (by omega),
    List.getElem?_set_ne (by omega), List.getElem?_set_ne (by omega),
    List.getElem?_set_ne (by omega), List.getElem?_set_ne (by omega),
    List.getElem?_set_ne (by omega), List.getElem?_set_ne (by omega),
    List.getElem?_set_ne (by omega)]

/-- Reading the triple just written by `setTriple`. -/
theorem readTriple_setTriple_self (buf : List Byte) (i : Nat) (col : Color)
    (h : i + 2 < buf.length) :
    PixelCanvas.readTriple (PixelCanvas.setTriple buf i col) i = some col := by
  obtain ⟨l1, l2, l3⟩ := setTriple_reads buf i col h
  unfold PixelCanvas.readTriple
  simp [l1, l2, l3]

/-- A pixel read at a location whose byte range is disjoint from the one a
`draw_pixel` wrote is unchanged by that `draw_pixel`. -/
theorem readPixel_draw_pixel_other (c : PixelCanvas) (x y u v : Nat) (col : Color)
    (h : c.pixelIndex x y + 2 < c.pixelIndex u v ∨
      c.pixelIndex u v + 2 < c.pixelIndex x y) :
    (c.draw_pixel x y col).readPixel u v = c.readPixel u v := by
  unfold PixelCanvas.readPixel
  rw [draw_pixel_pixelIndex, draw_pixel_buffer]
  split
  · exact readTriple_setTriple_other c.buffer _ _ col h
  · rfl

/-- Reading back the pixel a `draw_pixel` just wrote, given that the write
was in range of the buffer. -/
theorem readPixel_draw_pixel_self (c : PixelCanvas) (x y : Nat) (col : Color)
    (h : c.pixelIndex x y + 2 < c.buffer.length) :
    (c.draw_pixel x y col).readPixel x y = some col := by
  unfold PixelCanvas.readPixel
  rw [draw_pixel_pixelIndex, draw_pixel_buffer, if_pos h]
  exact readTriple_setTriple_self c.buffer _ col h

/-- Once the target is reached, further fuel never changes the dashed loop
result. -/
theorem dashedLoop_at_target (fuel : Nat) (c : PixelCanvas)
    (x y x2 y2 sx sy dx dy err : Int) (color : Color) (dl : Nat)
    (drawing : Bool) (seg : Nat) (h : x = x2 ∧ y = y2) :
    PixelCanvas.dashedLoop fuel c x y x2 y2 sx sy dx dy err color dl drawing seg =
      (c, drawing) := by
  induction fuel with
  | zero => rfl
  | succ n ih =>
    unfold PixelCanvas.dashedLoop at ih ⊢
    rw [iterateN_succ]
    dsimp only
    rw [if_pos (by exact ⟨h.1, h.2⟩)]
    exact ih

/-- Unfolding one fueled iteration of the dashed loop. -/
theorem dashedLoop_succ (fuel : Nat) (c : PixelCanvas)
    (x y x2 y2 sx sy dx dy err : Int) (color : Color) (dl : Nat)
    (drawing : Bool) (seg : Nat) :
    PixelCanvas.dashedLoop (fuel + 1) c x y x2 y2 sx sy dx dy err color dl drawing seg =
    if x = x2 ∧ y = y2 then (c, drawing)
    else
      PixelCanvas.dashedLoop fuel
        (if drawing then c.draw_pixel (toU32 x) (toU32 y) color else c)
        (PixelCanvas.bresStep sx sy dx dy x y err).1
        (PixelCanvas.bresStep sx sy dx dy x y err).2.1 x2 y2 sx sy dx dy
        (PixelCanvas.bresStep sx sy dx dy x y err).2.2 color dl
        (if seg + 1 = dl then !drawing else drawing)
        (if seg + 1 = dl then 0 else seg + 1) := by
  by_cases h : x = x2 ∧ y = y2
  · rw [if_pos h, dashedLoop_at_target (fuel + 1) c x y x2 y2 sx sy dx dy err color dl
      drawing seg h]
  · rw [if_neg h]
    unfold PixelCanvas.dashedLoop
    rw [iterateN_succ]
    dsimp only
    rw [if_neg (by simpa using h)]
    by_cases hseg : seg + 1 = dl <;> simp [hseg]

/-- Once the target is reached, the trace is empty whatever the fuel. -/
theorem dashedTrace_at_target (fuel : Nat) (x y x2 y2 sx sy dx dy err : Int)
    (dl : Nat) (drawing : Bool) (seg : Nat) (h : x = x2 ∧ y = y2) :
    PixelCanvas.dashedTrace fuel x y x2 y2 sx sy dx dy err dl drawing seg =
      ([], drawing) := by
  cases fuel <;> simp [PixelCanvas.dashedTrace, h.1, h.2]

/-- The dashed loop equals a `draw_pixel` fold over its control trace: the
canvas result is the fold of the visited-while-drawing pixels, and the
returned flag is the trace's exit flag. -/
theorem dashedLoop_eq_trace (x2 y2 sx sy dx dy : Int) (color : Color) (dl : Nat) :
    ∀ (fuel : Nat) (c : PixelCanvas) (x y err : Int) (drawing : Bool) (seg : Nat),
    PixelCanvas.dashedLoop fuel c x y x2 y2 sx sy dx dy err color dl drawing seg =
    ((PixelCanvas.dashedTrace fuel x y x2 y2 sx sy dx dy err dl drawing seg).1.foldl
        (fun cc p => cc.draw_pixel (toU32 p.1) (toU32 p.2) color) c,
      (PixelCanvas.dashedTrace fuel x y x2 y2 sx sy dx dy err dl drawing seg).2) := by
  intro fuel
  induction fuel with
  | zero => intro c x y err drawing seg; rfl
  | succ n ih =>
    intro c x y err drawing seg
    by_cases h : x = x2 ∧ y = y2
    · rw [dashedLoop_succ, if_pos h,
        dashedTrace_at_target (n + 1) x y x2 y2 sx sy dx dy err dl drawing seg h]
      rfl
    · rw [dashedLoop_succ, if_neg h, ih]
      simp only [PixelCanvas.dashedTrace]
      rw [if_neg h]
      by_cases hd : drawing <;> by_cases hseg : seg + 1 = dl <;>
        simp [hd, hseg, List.foldl_append]

/-- C6 confirmed: for every line color, the `Dashed(2)` line from `(0,0)`
to `(9,9)` on a fresh 10×10 surface paints the diagonal pixels at indices
0, 1, 4, 5 and 8 inside the loop, paints the final endpoint 9 because the
drawing flag is still on at loop exit, and leaves the diagonal pixels at
indices 2, 3, 6 and 7 exactly as they are on the fresh canvas
(background). -/
theorem claim6_theorem (color : Color) :
    (dashedScenario color).readPixel 0 0 = some color ∧
    (dashedScenario color).readPixel 1 1 = some color ∧
    (dashedScenario color).readPixel 4 4 = some color ∧
    (dashedScenario color).readPixel 5 5 = some color ∧
    (dashedScenario color).readPixel 8 8 = some color ∧
    (dashedScenario color).readPixel 9 9 = some color ∧
    (dashedScenario color).readPixel 2 2 =
      (PixelCanvas.new 10 10 (255, 255, 255) 0).readPixel 2 2 ∧
    (dashedScenario color).readPixel 3 3 =
      (PixelCanvas.new 10 10 (255, 255, 255) 0).readPixel 3 3 ∧
    (dashedScenario color).readPixel 6 6 =
      (PixelCanvas.new 10 10 (255, 255, 255) 0).readPixel 6 6 ∧
    (dashedScenario color).readPixel 7 7 =
      (PixelCanvas.new 10 10 (255, 255, 255) 0).readPixel 7 7 := by
  have hline : dashedScenario color =
      (if (PixelCanvas.dashedLoop 19 (PixelCanvas.new 10 10 (255, 255, 255) 0)
            0 0 9 9 1 1 9 (-9) 0 color 2 true 0).2 then
        (PixelCanvas.dashedLoop 19 (PixelCanvas.new 10 10 (255, 255, 255) 0)
            0 0 9 9 1 1 9 (-9) 0 color 2 true 0).1.draw_pixel (toU32 9) (toU32 9) color
      else
        (PixelCanvas.dashedLoop 19 (PixelCanvas.new 10 10 (255, 255, 255) 0)
            0 0 9 9 1 1 9 (-9) 0 color 2 true 0).1) := rfl
  have htrace : PixelCanvas.dashedTrace 19 0 0 9 9 1 1 9 (-9) 0 2 true 0 =
      ([(0, 0), (1, 1), (4, 4), (5, 5), (8, 8)], true) := by decide
  have t0 : toU32 0 = 0 := rfl
  have t1 : toU32 1 = 1 := rfl
  have t4 : toU32 4 = 4 := rfl
  have t5 : toU32 5 = 5 := rfl
  have t8 : toU32 8 = 8 := rfl
  have t9 : toU32 9 = 9 := rfl
  have hchain : dashedScenario color =
      ((((((PixelCanvas.new 10 10 (255, 255, 255) 0).draw_pixel 0 0
        color).draw_pixel 1 1 color).draw_pixel 4 4 color).draw_pixel 5 5
        color).draw_pixel 8 8 color).draw_pixel 9 9 color := by
    rw [hline, dashedLoop_eq_trace, htrace]
    rw [List.foldl_cons, List.foldl_cons, List.foldl_cons, List.foldl_cons,
      List.foldl_cons, List.foldl_nil]
    dsimp only
    simp only [t0, t1, t4, t5, t8, t9]
    rw [if_pos trivial]
  refine ⟨?_, ?_, ?_, ?_, ?_, ?_, ?_, ?_, ?_, ?_⟩
  · rw [hchain]
    rw [readPixel_draw_pixel_other _ _ _ _ _ _
        (by (try simp only [draw_pixel_pixelIndex]); decide)]
    rw [readPixel_draw_pixel_other _ _ _ _ _ _
        (by (try simp only [draw_pixel_pixelIndex]); decide)]
    rw [readPixel_draw_pixel_other _ _ _ _ _ _
        (by (try simp only [draw_pixel_pixelIndex]); decide)]
    rw [readPixel_draw_pixel_other _ _ _ _ _ _
        (by (try simp only [draw_pixel_pixelIndex]); decide)]
    rw [readPixel_draw_pixel_other _ _ _ _ _ _
        (by (try simp only [draw_pixel_pixelIndex]); decide)]
    rw [readPixel_draw_pixel_self _ _ _ _
        (by (try simp only [draw_pixel_pixelIndex, draw_pixel_length]); decide)]
  · rw [hchain]
    rw [readPixel_draw_pixel_other _ _ _ _ _ _
        (by (try simp only [draw_pixel_pixelIndex]); decide)]
    rw [readPixel_draw_pixel_other _ _ _ _ _ _
        (by (try simp only [draw_pixel_pixelIndex]); decide)]
    rw [readPixel_draw_pixel_other _ _ _ _ _ _
        (by (try simp only [draw_pixel_pixelIndex]); decide)]
    rw [readPixel_draw_pixel_other _ _ _ _ _ _
        (by (try simp only [draw_pixel_pixelIndex]); decide)]
    rw [readPixel_draw_pixel_self _ _ _ _
        (by (try simp only [draw_pixel_pixelIndex, draw_pixel_length]); decide)]
  · rw [hchain]
    rw [readPixel_draw_pixel_other _ _ _ _ _ _
        (by (try simp only [draw_pixel_pixelIndex]); decide)]
    rw [readPixel_draw_pixel_other _ _ _ _ _ _
        (by (try simp only [draw_pixel_pixelIndex]); decide)]
    rw [readPixel_draw_pixel_other _ _ _ _ _ _
        (by (try simp only [draw_pixel_pixelIndex]); decide)]
    rw [readPixel_draw_pixel_self _ _ _ _
        (by (try simp only [draw_pixel_pixelIndex, draw_pixel_length]); decide)]
  · rw [hchain]
    rw [readPixel_draw_pixel_other _ _ _ _ _ _
        (by (try simp only [draw_pixel_pixelIndex]); decide)]
    rw [readPixel_draw_pixel_other _ _ _ _ _ _
        (by (try simp only [draw_pixel_pixelIndex]); decide)]
    rw [readPixel_draw_pixel_self _ _ _ _
        (by (try simp only [draw_pixel_pixelIndex, draw_pixel_length]); decide)]
  · rw [hchain]
    rw [readPixel_draw_pixel_other _ _ _ _ _ _
        (by (try simp only [draw_pixel_pixelIndex]); decide)]
    rw [readPixel_draw_pixel_self _ _ _ _
        (by (try simp only [draw_pixel_pixelIndex, draw_pixel_length]); decide)]
  · rw [hchain]
    rw [readPixel_draw_pixel_self _ _ _ _
        (by (try simp only [draw_pixel_pixelIndex, draw_pixel_length]); decide)]
  · rw [hchain]
    rw [readPixel_draw_pixel_other _ _ _ _ _ _
        (by (try simp only [draw_pixel_pixelIndex]); decide)]
    rw [readPixel_draw_pixel_other _ _ _ _ _ _
        (by (try simp only [draw_pixel_pixelIndex]); decide)]
    rw [readPixel_draw_pixel_other _ _ _ _ _ _
        (by (try simp only [draw_pixel_pixelIndex]); decide)]
    rw [readPixel_draw_pixel_other _ _ _ _ _ _
        (by (try simp only [draw_pixel_pixelIndex]); decide)]
    rw [readPixel_draw_pixel_other _ _ _ _ _ _
        (by (try simp only [draw_pixel_pixelIndex]); decide)]
    rw [readPixel_draw_pixel_other _ _ _ _ _ _
        (by (try simp only [draw_pixel_pixelIndex]); decide)]
  · rw [hchain]
    rw [readPixel_draw_pixel_other _ _ _ _ _ _
        (by (try simp only [draw_pixel_pixelIndex]); decide)]
    rw [readPixel_draw_pixel_other _ _ _ _ _ _
        (by (try simp only [draw_pixel_pixelIndex]); decide)]
    rw [readPixel_draw_pixel_other _ _ _ _ _ _
        (by (try simp only [draw_pixel_pixelIndex]); decide)]
    rw [readPixel_draw_pixel_other _ _ _ _ _ _
        (by (try simp only [draw_pixel_pixelIndex]); decide)]
    rw [readPixel_draw_pixel_other _ _ _ _ _ _
        (by (try simp only [draw_pixel_pixelIndex]); decide)]
    rw [readPixel_draw_pixel_other _ _ _ _ _ _
        (by (try simp only [draw_pixel_pixelIndex]); decide)]
  · rw [hchain]
    rw [readPixel_draw_pixel_other _ _ _ _ _ _
        (by (try simp only [draw_pixel_pixelIndex]); decide)]
    rw [readPixel_draw_pixel_other _ _ _ _ _ _
        (by (try simp only [draw_pixel_pixelIndex]); decide)]
    rw [readPixel_draw_pixel_other _ _ _ _ _ _
        (by (try simp only [draw_pixel_pixelIndex]); decide)]
    rw [readPixel_draw_pixel_other _ _ _ _ _ _
        (by (try simp only [draw_pixel_pixelIndex]); decide)]
    rw [readPixel_draw_pixel_other _ _ _ _ _ _
        (by (try simp only [draw_pixel_pixelIndex]); decide)]
    rw [readPixel_draw_pixel_other _ _ _ _ _ _
        (by (try simp only [draw_pixel_pixelIndex]); decide)]
  · rw [hchain]
    rw [readPixel_draw_pixel_other _ _ _ _ _ _
        (by (try simp only [draw_pixel_pixelIndex]); decide)]
    rw [readPixel_draw_pixel_other _ _ _ _ _ _
        (by (try simp only [draw_pixel_pixelIndex]); decide)]
    rw [readPixel_draw_pixel_other _ _ _ _ _ _
        (by (try simp only [draw_pixel_pixelIndex]); decide)]
    rw [readPixel_draw_pixel_other _ _ _ _ _ _
        (by (try simp only [draw_pixel_pixelIndex]); decide)]
    rw [readPixel_draw_pixel_other _ _ _ _ _ _
        (by (try simp only [draw_pixel_pixelIndex]); decide)]
    rw [readPixel_draw_pixel_other _ _ _ _ _ _
        (by (try simp only [draw_pixel_pixelIndex]); decide)]

/-! ## C5 — vertical segments in the area fill -/

/-- A degenerate inclusive integer range is the singleton. -/
theorem intRangeIncl_self (lo : Int) : AreaChart.intRangeIncl lo lo = [lo] := by
  unfold AreaChart.intRangeIncl
  have h1 : (lo + 1 - lo).toNat = 1 := by omega
  rw [h1]
  show List.map (fun i => lo + i) [(0 : Int)] = [lo]
  simp

/-- Counterexample to C5 as stated: dataset `[(1,1), (1,2)]` with unit
scales and origin `(0,10)` maps both points to column `x = 1`, with
`y1 = 9`, `y2 = 8`, so `min(y1,y2) = 8`; the claimed fallback would blend
pixel `(1,8)` (to byte value 50 here), but the code computes
`y1 + (NaN as i32) = y1 = 9` and leaves `(1,8)` untouched while blending
`(1,9)` and `(1,10)`. -/
theorem claim5_counterexample :
    AreaChart.mapX 0 (F.finite 1) (F.finite 1, F.finite 1) =
      AreaChart.mapX 0 (F.finite 1) (F.finite 1, F.finite 2) ∧
    AreaChart.mapY 10 (F.finite 1) (F.finite 1, F.finite 1) = 9 ∧
    AreaChart.mapY 10 (F.finite 1) (F.finite 1, F.finite 2) = 8 ∧
    c5canvas.readPixel 1 8 = some (0, 0, 0) ∧
    c5canvas.readPixel 1 9 = some (50, 50, 50) ∧
    c5canvas.readPixel 1 10 = some (50, 50, 50) := by
  refine ⟨by decide, by decide, by decide, by decide, by decide, by decide⟩

/-- C5 amended: when the two mapped x-coordinates coincide, the fill does
not crash: the interpolation computes `0.0 * (y2-y1) / 0.0 = NaN`, whose
`as i32` cast is `0`, so the single column `x1` is blended from `y1` — the
first point's mapped y, not `min(y1, y2)` — down to the baseline. -/
theorem claim5_theorem (ox oy : Int) (scx scy : F) (col : Color) (alpha : Q)
    (c : PixelCanvas) (p1 p2 : F × F)
    (h : AreaChart.mapX ox scx p1 = AreaChart.mapX ox scx p2) :
    AreaChart.fillWindow ox oy scx scy col alpha c (p1, p2) =
    (AreaChart.intRangeIncl (AreaChart.mapY oy scy p1) oy).foldl
      (fun acc y => acc.blend_pixel (toU32 (AreaChart.mapX ox scx p1)) (toU32 y)
        col alpha) c := by
  unfold AreaChart.fillWindow
  dsimp only
  rw [← h, min_self, max_self, intRangeIncl_self, List.foldl_cons, List.foldl_nil]
  have hnan : ((F.ofInt (AreaChart.mapX ox scx p1 - AreaChart.mapX ox scx p1)).mul
      (F.ofInt (AreaChart.mapY oy scy p2 - AreaChart.mapY oy scy p1))).div
      (F.ofInt |AreaChart.mapX ox scx p1 - AreaChart.mapX ox scx p1|) = F.nan := by
    simp [F.ofInt, F.mul, F.div, Q.mul, Q.ofInt, Q.isZero]
  rw [hnan]
  show (AreaChart.intRangeIncl (AreaChart.mapY oy scy p1 + F.toI32 F.nan) oy).foldl _ _ = _
  norm_num [F.toI32]

/-- Witness for the amended C5 at the concrete vertical-segment input of
the counterexample: the fill of the pair `((1,1), (1,2))` equals the
single-column blend from `y1 = 9` down to the baseline `10`. -/
theorem claim5_witness :
    AreaChart.fillWindow 0 10 (F.finite 1) (F.finite 1) (100, 100, 100) (Q.mk 1 2)
      (PixelCanvas.new 12 12 (0, 0, 0) 0) ((F.finite 1, F.finite 1), (F.finite 1, F.finite 2)) =
    (AreaChart.intRangeIncl (AreaChart.mapY 10 (F.finite 1) (F.finite 1, F.finite 1)) 10).foldl
      (fun acc y => acc.blend_pixel
        (toU32 (AreaChart.mapX 0 (F.finite 1) (F.finite 1, F.finite 1))) (toU32 y)
        (100, 100, 100) (Q.mk 1 2)) (PixelCanvas.new 12 12 (0, 0, 0) 0) :=
  claim5_theorem 0 10 (F.finite 1) (F.finite 1) (100, 100, 100) (Q.mk 1 2)
    (PixelCanvas.new 12 12 (0, 0, 0) 0) (F.finite 1, F.finite 1) (F.finite 1, F.finite 2)
    (by decide)

/-! ## C8 — SVG numeric attribute formatting and document structure -/

/-- A decimal digit character built from a value at most 9 satisfies
`Char.isDigit`. -/
theorem digit_char_isDigit (k : Nat) (hk : k ≤ 9) :
    (Char.ofNat (48 + k)).isDigit = true := by
  interval_cases k <;> decide

/-- Counterexample to C8 as stated: a concrete `draw_rect` call with
opacity `1.0` emits `fill-opacity="1"` — not a 2-decimal-digit attribute —
because the source formats the opacity with `{}` instead of `{:.2}`; the
emitted element differs from what the spec's all-2-decimal formatting
(`draw_rect_spec2dec`) would produce. -/
theorem claim8_counterexample :
    (SvgCanvas.draw_rect (SvgCanvas.new 100 50 "white" 5) 1 2 3 4 "white" "black"
        (Q.mk 1 2) 1).elements =
      [svgHeader 100 50,
       "<rect x=\"1.00\" y=\"2.00\" width=\"3.00\" height=\"4.00\" fill=\"white\" stroke=\"black\" stroke-width=\"0.50\" fill-opacity=\"1\"/>"] ∧
    SvgCanvas.draw_rect (SvgCanvas.new 100 50 "white" 5) 1 2 3 4 "white" "black"
        (Q.mk 1 2) 1 ≠
      SvgCanvas.draw_rect_spec2dec (SvgCanvas.new 100 50 "white" 5) 1 2 3 4 "white"
        "black" (Q.mk 1 2) 1 := by
  refine ⟨by decide, by decide⟩

/-- C8 amended: the `{:.2}` formatter used for every numeric attribute of
`line`, `circle`, `text`, `title` and for the coordinate/size/stroke
attributes of `rect` always prints exactly two digits after the decimal
point; the one exception is `rect`'s `fill-opacity`, which goes through the
default `{}` formatter (printing e.g. `"1"` for `1.0`); and the saved
document is the accumulated fragments in insertion order, one per line,
followed by the single closing tag — the header is the fragment `new`
pushed first. -/
theorem claim8_theorem :
    (∀ q : Q, ∃ (p : String) (d1 d2 : Char),
      fmt2 q = p ++ "." ++ String.mk [d1, d2] ∧ d1.isDigit = true ∧ d2.isDigit = true) ∧
    fmtDisplay 1 = "1" ∧
    (∀ (svg : SvgCanvas) (x y w h sw op : Q) (fc sc : String),
      (svg.draw_rect x y w h fc sc sw op).elements = svg.elements ++
        ["<rect x=\"" ++ fmt2 x ++ "\" y=\"" ++ fmt2 y ++ "\" width=\"" ++ fmt2 w
          ++ "\" height=\"" ++ fmt2 h ++ "\" fill=\"" ++ fc ++ "\" stroke=\""
          ++ sc ++ "\" stroke-width=\"" ++ fmt2 sw
          ++ "\" fill-opacity=\"" ++ fmtDisplay op ++ "\"/>"]) ∧
    (∀ (svg : SvgCanvas) (x1 y1 x2 y2 sw : Q) (col : String),
      (svg.draw_line x1 y1 x2 y2 col sw).elements = svg.elements ++
        ["<line x1=\"" ++ fmt2 x1 ++ "\" y1=\"" ++ fmt2 y1 ++ "\" x2=\"" ++ fmt2 x2
          ++ "\" y2=\"" ++ fmt2 y2 ++ "\" stroke=\"" ++ col ++ "\" stroke-width=\""
          ++ fmt2 sw ++ "\"/>"]) ∧
    (∀ svg : SvgCanvas, svg.saveContent =
      String.join (svg.elements.map (· ++ "\n")) ++ "</svg>\n") ∧
    (∀ (w h : Nat) (bg : String) (m : Nat),
      (SvgCanvas.new w h bg m).saveContent = svgHeader w h ++ "\n" ++ "</svg>\n") := by
  refine ⟨?_, by decide, fun _ _ _ _ _ _ _ _ _ => rfl, fun _ _ _ _ _ _ _ => rfl,
    fun _ => rfl, ?_⟩
  · intro q
    refine ⟨(if rhe (q.mul (Q.ofNat 100)) < 0 then "-" else "") ++
        toString ((rhe (q.mul (Q.ofNat 100))).natAbs / 100),
      Char.ofNat (48 + (rhe (q.mul (Q.ofNat 100))).natAbs % 100 / 10),
      Char.ofNat (48 + (rhe (q.mul (Q.ofNat 100))).natAbs % 10), ?_, ?_, ?_⟩
    · unfold fmt2
      rw [String.append_assoc]
    · exact digit_char_isDigit _ (by omega)
    · exact digit_char_isDigit _ (by omega)
  · intro w h bg m
    show String.join [svgHeader w h ++ "\n"] ++ "</svg>\n" = _
    simp [String.join]

/-! ## C9 — shape and buffer-length invariants of every operation -/

/-- The shape relation is reflexive. -/
theorem sameShape_refl (c : PixelCanvas) : sameShape c c :=
  ⟨rfl, rfl, rfl, rfl, rfl⟩

/-- The shape relation is transitive. -/
theorem sameShape_trans (a b c : PixelCanvas) (h1 : sameShape a b)
    (h2 : sameShape b c) : sameShape a c := by
  obtain ⟨w1, h1a, m1, bg1, l1⟩ := h1
  obtain ⟨w2, h2a, m2, bg2, l2⟩ := h2
  exact ⟨w2.trans w1, h2a.trans h1a, m2.trans m1, bg2.trans bg1, l2.trans l1⟩

/-- The buffer invariant transfers along the shape relation. -/
theorem bufInv_of_sameShape (c d : PixelCanvas) (h : bufInv c)
    (hs : sameShape c d) : bufInv d := by
  obtain ⟨hw, hh, _, _, hl⟩ := hs
  unfold bufInv at h ⊢
  rw [hl, hw, hh, h]

/-- `draw_pixel` preserves the shape. -/
theorem sameShape_draw_pixel (c : PixelCanvas) (x y : Nat) (col : Color) :
    sameShape c (c.draw_pixel x y col) := by
  unfold PixelCanvas.draw_pixel sameShape
  dsimp only
  split <;> simp [setTriple_length]

/-- `blend_pixel` preserves the shape. -/
theorem sameShape_blend_pixel (c : PixelCanvas) (x y : Nat) (col : Color)
    (alpha : Q) : sameShape c (c.blend_pixel x y col alpha) := by
  unfold PixelCanvas.blend_pixel sameShape
  dsimp only
  split <;> simp [setTriple_length]

/-- A fold of shape-preserving steps preserves the shape. -/
theorem sameShape_foldl {β : Type} (f : PixelCanvas → β → PixelCanvas)
    (hf : ∀ c b, sameShape c (f c b)) :
    ∀ (l : List β) (c : PixelCanvas), sameShape c (l.foldl f c) := by
  intro l
  induction l with
  | nil => intro c; exact sameShape_refl c
  | cons b t ih =>
    intro c
    exact sameShape_trans _ _ _ (hf c b) (ih (f c b))

/-- Iterating a shape-preserving step preserves the shape of the canvas
component of the state. -/
theorem sameShape_iterateN {β : Type} (f : PixelCanvas × β → PixelCanvas × β)
    (hf : ∀ s, sameShape s.1 (f s).1) :
    ∀ (n : Nat) (s : PixelCanvas × β), sameShape s.1 (PixelCanvas.iterateN f n s).1 := by
  intro n
  induction n with
  | zero => intro s; exact sameShape_refl _
  | succ k ih =>
    intro s
    rw [iterateN_succ]
    exact sameShape_trans _ _ _ (hf s) (ih (f s))

/-- `clear` preserves the shape. -/
theorem sameShape_clear (c : PixelCanvas) : sameShape c c.clear := by
  unfold PixelCanvas.clear sameShape
  simp

/-- `draw_horizontal_line` preserves the shape. -/
theorem sameShape_hline (c : PixelCanvas) (y : Nat) (col : Color) :
    sameShape c (c.draw_horizontal_line y col) :=
  sameShape_foldl _ (fun cc x => sameShape_draw_pixel cc x y col) _ c

/-- `draw_vertical_line` preserves the shape. -/
theorem sameShape_vline (c : PixelCanvas) (x : Nat) (col : Color) :
    sameShape c (c.draw_vertical_line x col) :=
  sameShape_foldl _ (fun cc y => sameShape_draw_pixel cc x y col) _ c

/-- Extending a shape-preserving computation by one `draw_pixel`. -/
theorem sameShape_step (a b : PixelCanvas) (x y : Nat) (col : Color)
    (h : sameShape a b) : sameShape a (b.draw_pixel x y col) :=
  sameShape_trans a b _ h (sameShape_draw_pixel b x y col)

/-- The solid loop preserves the shape. -/
theorem sameShape_solidLoop (fuel : Nat) (c : PixelCanvas)
    (x y x2 y2 sx sy dx dy err : Int) (color : Color) :
    sameShape c (PixelCanvas.solidLoop fuel c x y x2 y2 sx sy dx dy err color) := by
  unfold PixelCanvas.solidLoop
  refine sameShape_iterateN _ ?_ fuel (c, x, y, err)
  intro s
  dsimp only
  split
  · exact sameShape_refl _
  · dsimp only
    exact sameShape_step _ _ _ _ _ (sameShape_refl _)

/-- The thick loop preserves the shape. -/
theorem sameShape_thickLoop (fuel : Nat) (c : PixelCanvas)
    (x y x2 y2 sx sy dx dy err : Int) (color : Color) :
    sameShape c (PixelCanvas.thickLoop fuel c x y x2 y2 sx sy dx dy err color) := by
  unfold PixelCanvas.thickLoop
  refine sameShape_iterateN _ ?_ fuel (c, x, y, err)
  intro s
  dsimp only
  split
  · exact sameShape_refl _
  · dsimp only
    exact sameShape_step _ _ _ _ _ (sameShape_step _ _ _ _ _ (sameShape_step _ _ _ _ _
      (sameShape_step _ _ _ _ _ (sameShape_step _ _ _ _ _ (sameShape_refl _)))))

/-- The dashed/dotted loop preserves the shape of the canvas component. -/
theorem sameShape_dashedLoop (fuel : Nat) (c : PixelCanvas)
    (x y x2 y2 sx sy dx dy err : Int) (color : Color) (dl : Nat)
    (drawing : Bool) (seg : Nat) :
    sameShape c
      (PixelCanvas.dashedLoop fuel c x y x2 y2 sx sy dx dy err color dl drawing seg).1 := by
  unfold PixelCanvas.dashedLoop
  dsimp only
  refine sameShape_iterateN _ ?_ fuel (c, x, y, err, drawing, seg)
  intro s
  dsimp only
  split
  · exact sameShape_refl _
  · dsimp only
    split
    · exact sameShape_step _ _ _ _ _ (sameShape_refl _)
    · exact sameShape_refl _

/-- A conditional final endpoint write keeps the shape. -/
theorem sameShape_ite_draw (c r : PixelCanvas) (b : Bool) (x y : Nat)
    (col : Color) (h : sameShape c r) :
    sameShape c (if b then r.draw_pixel x y col else r) := by
  cases b
  · simpa using h
  · simpa using sameShape_step _ _ x y col h

/-- Every style of `draw_line` preserves the shape. -/
theorem sameShape_draw_line (c : PixelCanvas) (x1 y1 x2 y2 : Int) (col : Color)
    (lt : LineType) : sameShape c (c.draw_line x1 y1 x2 y2 col lt) := by
  cases lt with
  | Solid =>
    unfold PixelCanvas.draw_line
    dsimp only
    exact sameShape_step _ _ _ _ _ (sameShape_solidLoop _ _ _ _ _ _ _ _ _ _ _ _)
  | SolidThick =>
    unfold PixelCanvas.draw_line
    dsimp only
    exact sameShape_step _ _ _ _ _ (sameShape_thickLoop _ _ _ _ _ _ _ _ _ _ _ _)
  | Dashed n =>
    unfold PixelCanvas.draw_line
    dsimp only
    exact sameShape_ite_draw _ _ _ _ _ _ (sameShape_dashedLoop _ _ _ _ _ _ _ _ _ _ _ _ _ _ _)
  | Dotted n =>
    unfold PixelCanvas.draw_line
    dsimp only
    exact sameShape_ite_draw _ _ _ _ _ _ (sameShape_dashedLoop _ _ _ _ _ _ _ _ _ _ _ _ _ _ _)
  | Squared g sl => exact sameShape_refl _

/-- A grid draw that returns (nonzero steps) preserves the shape. -/
theorem sameShape_draw_grid (c : PixelCanvas) (gs : Nat × Nat) (col : Color)
    (cg : PixelCanvas) (h : c.draw_grid gs col = some cg) : sameShape c cg := by
  unfold PixelCanvas.draw_grid at h
  split at h
  · exact absurd h (by simp)
  · injection h with h
    subst h
    exact sameShape_trans _ _ _
      (sameShape_foldl _ (fun cc x => sameShape_vline cc x col) _ c)
      (sameShape_foldl _ (fun cc y => sameShape_hline cc y col) _ _)

/-- A single glyph pixel write keeps the buffer length. -/
theorem putPix_length (w h : Nat) (buf : List Byte) (wr : Nat × Nat × Color) :
    (PixelCanvas.putPix w h buf wr).length = buf.length := by
  unfold PixelCanvas.putPix
  split
  · exact setTriple_length ..
  · rfl

/-- Folding glyph pixel writes keeps the buffer length. -/
theorem foldl_putPix_length (w h : Nat) :
    ∀ (l : List (Nat × Nat × Color)) (buf : List Byte),
    (l.foldl (PixelCanvas.putPix w h) buf).length = buf.length := by
  intro l
  induction l with
  | nil => intro buf; rfl
  | cons a t ih =>
    intro buf
    rw [List.foldl_cons, ih, putPix_length]

/-- A text draw that returns (buffer long enough) preserves the shape. -/
theorem sameShape_draw_text (c : PixelCanvas) (gw : List (Nat × Nat × Color))
    (ct : PixelCanvas) (h : c.draw_text gw = some ct) : sameShape c ct := by
  unfold PixelCanvas.draw_text at h
  split at h
  · injection h with h
    subst h
    exact ⟨rfl, rfl, rfl, rfl, foldl_putPix_length c.width c.height gw c.buffer⟩
  · exact absurd h (by simp)

/-- C9 confirmed: `new` establishes `buffer.len() == width*height*3` (its
u32 size arithmetic not overflowing), and every canvas operation — `clear`,
`draw_pixel`, `blend_pixel`, `draw_horizontal_line`, `draw_vertical_line`,
`draw_grid`, `draw_line` in every style, and `draw_text` (for any glyph
writes its rasterizer produces) — preserves that invariant and leaves
`width`, `height`, `margin` and `background_color` unchanged.  `draw_grid`
and `draw_text` are stated over their non-panicking runs. -/
theorem claim9_theorem :
    (∀ (w h : Nat) (bg : Color) (m : Nat), w * h * 3 < M32 →
      bufInv (PixelCanvas.new w h bg m)) ∧
    (∀ c : PixelCanvas, bufInv c → bufInv c.clear ∧ sameShape c c.clear) ∧
    (∀ (c : PixelCanvas) (x y : Nat) (col : Color), bufInv c →
      bufInv (c.draw_pixel x y col) ∧ sameShape c (c.draw_pixel x y col)) ∧
    (∀ (c : PixelCanvas) (x y : Nat) (col : Color) (alpha : Q), bufInv c →
      bufInv (c.blend_pixel x y col alpha) ∧ sameShape c (c.blend_pixel x y col alpha)) ∧
    (∀ (c : PixelCanvas) (y : Nat) (col : Color), bufInv c →
      bufInv (c.draw_horizontal_line y col) ∧ sameShape c (c.draw_horizontal_line y col)) ∧
    (∀ (c : PixelCanvas) (x : Nat) (col : Color), bufInv c →
      bufInv (c.draw_vertical_line x col) ∧ sameShape c (c.draw_vertical_line x col)) ∧
    (∀ (c : PixelCanvas) (gs : Nat × Nat) (col : Color) (cg : PixelCanvas),
      c.draw_grid gs col = some cg → bufInv c → bufInv cg ∧ sameShape c cg) ∧
    (∀ (c : PixelCanvas) (x1 y1 x2 y2 : Int) (col : Color) (lt : LineType), bufInv c →
      bufInv (c.draw_line x1 y1 x2 y2 col lt) ∧ sameShape c (c.draw_line x1 y1 x2 y2 col lt)) ∧
    (∀ (c : PixelCanvas) (gw : List (Nat × Nat × Color)) (ct : PixelCanvas),
      c.draw_text gw = some ct → bufInv c → bufInv ct ∧ sameShape c ct) := by
  refine ⟨?_, ?_, ?_, ?_, ?_, ?_, ?_, ?_, ?_⟩
  · intro w h bg m hM
    unfold bufInv PixelCanvas.new
    simp [Nat.mod_eq_of_lt hM]
  · intro c h
    exact ⟨bufInv_of_sameShape c _ h (sameShape_clear c), sameShape_clear c⟩
  · intro c x y col h
    exact ⟨bufInv_of_sameShape c _ h (sameShape_draw_pixel c x y col),
      sameShape_draw_pixel c x y col⟩
  · intro c x y col alpha h
    exact ⟨bufInv_of_sameShape c _ h (sameShape_blend_pixel c x y col alpha),
      sameShape_blend_pixel c x y col alpha⟩
  · intro c y col h
    exact ⟨bufInv_of_sameShape c _ h (sameShape_hline c y col), sameShape_hline c y col⟩
  · intro c x col h
    exact ⟨bufInv_of_sameShape c _ h (sameShape_vline c x col), sameShape_vline c x col⟩
  · intro c gs col cg hg h
    exact ⟨bufInv_of_sameShape c _ h (sameShape_draw_grid c gs col cg hg),
      sameShape_draw_grid c gs col cg hg⟩
  · intro c x1 y1 x2 y2 col lt h
    exact ⟨bufInv_of_sameShape c _ h (sameShape_draw_line c x1 y1 x2 y2 col lt),
      sameShape_draw_line c x1 y1 x2 y2 col lt⟩
  · intro c gw ct ht h
    exact ⟨bufInv_of_sameShape c _ h (sameShape_draw_text c gw ct ht),
      sameShape_draw_text c gw ct ht⟩

/-- Witness for C9 at concrete inputs: `new 4 4` establishes the invariant,
and a solid diagonal line, a `clear` and a blended pixel all keep it. -/
theorem claim9_witness :
    bufInv (PixelCanvas.new 4 4 (1, 2, 3) 1) ∧
    bufInv ((PixelCanvas.new 4 4 (1, 2, 3) 1).draw_line 0 0 3 3 (5, 6, 7) .Solid) ∧
    bufInv ((PixelCanvas.new 4 4 (1, 2, 3) 1).clear) ∧
    bufInv ((PixelCanvas.new 4 4 (1, 2, 3) 1).blend_pixel 1 1 (9, 9, 9) (Q.mk 1 2)) :=
  have h0 : bufInv (PixelCanvas.new 4 4 (1, 2, 3) 1) :=
    claim9_theorem.1 4 4 (1, 2, 3) 1 (by decide)
  ⟨h0,
   (claim9_theorem.2.2.2.2.2.2.2.1 (PixelCanvas.new 4 4 (1, 2, 3) 1) 0 0 3 3 (5, 6, 7)
     .Solid h0).1,
   (claim9_theorem.2.1 (PixelCanvas.new 4 4 (1, 2, 3) 1) h0).1,
   (claim9_theorem.2.2.2.1 (PixelCanvas.new 4 4 (1, 2, 3) 1) 1 1 (9, 9, 9) (Q.mk 1 2) h0).1⟩
